import Mathlib

/-!
Verification of the offline-first synchronization layer of the jobs-app
repository.

The development shallowly embeds three source modules:

* `src/services/database.ts` (the Persistent Store: the `jobs` SQLite table,
  `saveJobs`, `getJobs`, `getJobById`, the last-sync timestamp slot and the
  staleness predicate `isDataStale`) — namespace `Database`;
* `src/services/api.ts` (the Remote Catalog Client: `fetchJobs`,
  `fetchJobById` and its mock-data fallback) — namespace `Api`;
* `src/contexts/JobsContext.tsx`, the Database-backed `JobsProvider`
  (the Synchronization Orchestrator: `refreshFromApi` and `getJobById`
  with its memory cache and pending-fetch table) — namespace `Orchestrator`.

Asynchronous TS code is modelled by explicit state passing: `refreshFromApi`
becomes a list of states, one per `await` suspension boundary, and the
orchestrator's `getJobById` becomes a small-step machine whose steps are the
maximal synchronous segments between suspension points, so that two
overlapping calls can be interleaved by an explicit schedule.

Fields that the source stores as opaque text and never inspects
(`salary`, `postedDate`) are modelled as `String`; optional JS fields are
`Option`; JS truthiness of a string (`undefined` and `""` are falsy) is made
explicit wherever the source branches on it.
-/

/-- Structure `Job` from `src/services/api.ts`.  `salary : Salary | string` is stored as
opaque serialized text by the Persistent Store and never structurally
inspected by the code under verification, so it is modelled by its text.
`requirements`/`benefits` (`string[] | string`) are likewise opaque text.
`postedDate` (`string | Date`) is the text the store receives. -/
structure Job where
  id : String
  _id : Option String
  title : String
  company : String
  companyLogo : Option String
  location : String
  «type» : String
  salary : String
  workplace : Option String
  description : Option String
  requirements : Option String
  benefits : Option String
  postedDate : String
  featured : Option Bool
  category : Option String
deriving DecidableEq, Repr

/-- JS truthiness of an optional string: `undefined` and `""` are falsy. -/
def truthyStr : Option String → Bool
  | none => false
  | some s => s ≠ ""

/-- The completeness invariant used throughout the code: a record is
"detailed" iff `record.description` is truthy (present and non-empty). -/
def isDetailed (j : Job) : Bool := truthyStr j.description

namespace Database

/-- Constant `STALE_DATA_THRESHOLD = 60 * 60 * 1000` (one hour in milliseconds). -/
def STALE_DATA_THRESHOLD : Nat := 60 * 60 * 1000

/-- One row of the `jobs` table.  Columns exactly as created by
`initDatabase`: `id, title, company, location, type, category, description,
requirements, salary, posted_date, featured` (the bookkeeping columns
`created_at` / `updated_at` are written but never read back by any query in
the module, so they are not carried).  There is no column for `benefits`,
`workplace` or `companyLogo`. -/
structure Row where
  id : String
  title : String
  company : String
  location : String
  «type» : String
  category : String
  description : String
  requirements : String
  salary : String
  posted_date : String
  featured : Nat
deriving DecidableEq, Repr

/-- The bind-parameter list of the `INSERT OR REPLACE` in `saveJobs`.
`description` and `requirements` are written as `job.description || ''` /
`job.requirements || ''`; `featured` as `job.featured ? 1 : 0`.  The
`category` column is declared `NOT NULL` but `job.category` is optional in
the data model: binding an absent category violates the constraint and fails
the row (the in-model cause of a persistence failure). -/
def rowOfJob (j : Job) : Option Row :=
  match j.category with
  | none => none
  | some c =>
    some { id := j.id, title := j.title, company := j.company,
           location := j.location, «type» := j.«type», category := c,
           description := j.description.getD "",
           requirements := j.requirements.getD "",
           salary := j.salary, posted_date := j.postedDate,
           featured := match j.featured with | some true => 1 | _ => 0 }

/-- Statement `INSERT OR REPLACE`, keyed on the primary key `id`. -/
def upsertRow (tbl : List Row) (r : Row) : List Row :=
  r :: tbl.filter (fun q => q.id ≠ r.id)

/-- The body of `saveJobs`' transaction: each job's row applied in order;
the first failing row aborts the whole batch. -/
def applyRows : List Job → List Row → Option (List Row)
  | [], tbl => some tbl
  | j :: rest, tbl =>
    match rowOfJob j with
    | none => none
    | some r => applyRows rest (upsertRow tbl r)

/-- Function `saveJobs`: no-op for an empty batch (`if (jobs.length === 0) return`);
otherwise all rows are written inside one transaction, and on any row
failure the transaction is rolled back (`ROLLBACK`) and the error
propagates, leaving the table unchanged — `.error ()` models the rethrown
error, and the caller keeps its previous table. -/
def saveJobs (jobs : List Job) (tbl : List Row) : Except Unit (List Row) :=
  if jobs.isEmpty then .ok tbl
  else
    match applyRows jobs tbl with
    | some t => .ok t
    | none => .error ()

/-- The `Job` reconstructed by `getJobs` / `getJobById` from a row.  The
table has no `benefits`, `workplace` or `companyLogo` column, so those come
back absent; `description` and `requirements` come back as the stored text
(`some`, possibly `""`); `featured` as `row.featured === 1`. -/
def rowToJob (r : Row) : Job :=
  { id := r.id, _id := none, title := r.title, company := r.company,
    companyLogo := none, location := r.location, «type» := r.«type»,
    salary := r.salary, workplace := none,
    description := some r.description,
    requirements := some r.requirements,
    benefits := none, postedDate := r.posted_date,
    featured := some (r.featured == 1), category := some r.category }

/-- Lexicographic comparison of character sequences by code point.  SQLite
compares TEXT with its BINARY collation (memcmp of the UTF-8 bytes), which
on valid UTF-8 is exactly code-point lexicographic order. -/
def charsLe : List Char → List Char → Bool
  | [], _ => true
  | _ :: _, [] => false
  | a :: as, b :: bs =>
    if a.toNat < b.toNat then true
    else if b.toNat < a.toNat then false
    else charsLe as bs

/-- BINARY-collation comparison of two TEXT values. -/
def strLe (a b : String) : Bool := charsLe a.data b.data

/-- The comparison realising `ORDER BY featured DESC, posted_date DESC`
(`posted_date` is a TEXT column, compared by the default BINARY
collation). -/
def rowLe (a b : Row) : Bool :=
  (b.featured < a.featured) ||
  (a.featured == b.featured && strLe b.posted_date a.posted_date)

/-- Relation `rowLe` in the decidable-relation form (the form the sort lemmas use). -/
def rowLeP (a b : Row) : Prop := rowLe a b = true

instance : DecidableRel rowLeP := fun _ _ =>
  inferInstanceAs (Decidable (_ = true))

/-- Function `getJobs`: `SELECT * FROM jobs ORDER BY featured DESC, posted_date DESC`
mapped through `rowToJob`.  SQL's ORDER BY promises only that the output is
some reordering of the rows that is sorted under the comparison; it is
realised here by insertion sort. -/
def getJobs (tbl : List Row) : List Job :=
  (List.insertionSort rowLeP tbl).map rowToJob

/-- Function `getJobById`: `SELECT * FROM jobs WHERE id = ?`, `null` when absent. -/
def getJobById (id : String) (tbl : List Row) : Option Job :=
  (tbl.find? (fun r => r.id == id)).map rowToJob

/-- The `AsyncStorage` slot for `LAST_SYNC_KEY`.  The code stores
`Date.now().toString()` and reads it back with
`lastSync ? parseInt(lastSync, 10) : null`; `parseInt` of a decimal numeral
is the identity, so the slot is modelled as the number itself.  JS
truthiness is applied where the source applies it. -/
def getLastSyncTime (kv : Option Nat) : Option Nat := kv

/-- Function `updateLastSyncTime`: store the current epoch milliseconds. -/
def updateLastSyncTime (now : Nat) : Option Nat := some now

/-- Function `isDataStale`: `if (!lastSync) return true` — falsy for both `null` and
the number `0` — else `Date.now() - lastSync > STALE_DATA_THRESHOLD`
(a clock that went backwards gives a non-positive difference in JS and a
truncated-to-zero one here; both fall on the `false` side). -/
def isDataStale (kv : Option Nat) (now : Nat) : Bool :=
  match getLastSyncTime kv with
  | none => true
  | some t =>
    if t = 0 then true
    else decide (now - t > STALE_DATA_THRESHOLD)

end Database

namespace Api

/-- The outcome of one underlying HTTP request, as observed by the service
functions in `src/services/api.ts`: a parsed JSON body, a non-2xx status
(`!response.ok`), or a thrown `fetch`/parse error. -/
inductive HttpResult (α : Type) where
  | ok (body : α)
  | httpError (status : Nat)
  | thrown
deriving DecidableEq, Repr

/-- Function `getMockJobById`: the hard-coded fallback record.  Text fields are
representative excerpts of the literals in the source; the structured
salary object and the requirement/benefit arrays stand as their serialized
text (the model's opaque-text convention). -/
def getMockJobById (id : String) : Job :=
  { id := id, _id := none,
    title := "Senior React Native Developer",
    company := "Tech Innovations Inc",
    companyLogo := some "https://placehold.co/200x200/4F46E5/FFFFFF?text=TI",
    location := "San Francisco, CA",
    «type» := "Full-time",
    salary := "\x7b min: 120000, max: 150000, currency: $, period: year \x7d",
    workplace := some "Remote",
    description := some "We are seeking an experienced React Native developer to join our mobile development team.",
    requirements := some "At least 4 years of experience with React Native development; ...",
    benefits := some "Competitive salary and equity package; ...",
    postedDate := "5 days ago",
    featured := some true,
    category := some "software-development" }

/-- Expression `jobData._id || jobData.id || id`: the first truthy identifier (a raw
payload may carry an empty or absent `id`, modelled as `""` / `none`). -/
def normalizeId (jd : Job) (id : String) : String :=
  match jd._id with
  | some m => if m ≠ "" then m else (if jd.id ≠ "" then jd.id else id)
  | none => if jd.id ≠ "" then jd.id else id

/-- Function `fetchJobById`.  The body (after `data.job || data`) is an optional raw
record.  On a non-ok status, on a thrown error, on a null body and on an
incomplete body (`!jobData.title || !jobData.company`, JS truthiness) the
function *resolves* with `getMockJobById(id)`; only a complete body is
returned, with its `id` normalized.  The `Except` result makes the
resolve/reject distinction explicit: this function never rejects. -/
def fetchJobById (id : String) (resp : HttpResult (Option Job)) :
    Except Unit Job :=
  match resp with
  | .thrown => .ok (getMockJobById id)
  | .httpError _ => .ok (getMockJobById id)
  | .ok none => .ok (getMockJobById id)
  | .ok (some jobData) =>
    if jobData.title = "" || jobData.company = "" then
      .ok (getMockJobById id)
    else
      .ok { jobData with id := normalizeId jobData id }

/-- Function `fetchJobs`: returns `{jobs, total}` on success and throws
(`throw new Error(...)` / rethrown catch) on a non-ok status or a thrown
fetch error. -/
def fetchJobs (resp : HttpResult (List Job × Nat)) :
    Except Unit (List Job × Nat) :=
  match resp with
  | .ok d => .ok d
  | .httpError _ => .error ()
  | .thrown => .error ()

end Api

namespace Orchestrator

/-- The memory cache `jobsCache : Record<string, Job>`. -/
abbrev Cache := String → Option Job

/-- Assignment `updatedCache[key] = value` on a copy of the record. -/
def setCache (c : Cache) (k : String) (j : Job) : Cache :=
  fun x => if x = k then some j else c x

/-- The non-destructive merge of `refreshFromApi`: spread the existing
detailed record and overwrite `title, company, companyLogo, location, type,
salary, workplace, featured, category` from the incoming one.  (`postedDate`,
`description`, `requirements`, `benefits` and `_id` stay as cached.) -/
def mergeJob (existingJob job : Job) : Job :=
  { existingJob with
    title := job.title, company := job.company,
    companyLogo := job.companyLogo, location := job.location,
    «type» := job.«type», salary := job.salary,
    workplace := job.workplace, featured := job.featured,
    category := job.category }

/-- One iteration of the `jobsData.forEach` in `refreshFromApi`.  The
existing entry is looked up in the *original* `jobsCache` (the closure
variable), while the write goes to the accumulating `updatedCache`. -/
def mergeStep (c : Cache) (acc : Cache) (job : Job) : Cache :=
  match c job.id with
  | some existingJob =>
    if isDetailed existingJob then
      setCache acc job.id (mergeJob existingJob job)
    else setCache acc job.id job
  | none => setCache acc job.id job

/-- Cache `updatedCache`: start from a copy of `jobsCache` and fold the incoming
catalog through `mergeStep`. -/
def mergeCache (c : Cache) (incoming : List Job) : Cache :=
  incoming.foldl (mergeStep c) c

/-- The provider state touched by `refreshFromApi`: the visible `jobs`
list, the memory cache, the persistent table, the last-sync slot, the
`error` and `isOffline` flags.  (`categories`, `isLoading` and
`isRefreshing` play no part in any claim and are not carried.) -/
structure RState where
  jobs : List Job
  cache : Cache
  store : List Database.Row
  lastSync : Option Nat
  error : Option String
  isOffline : Bool

/-- Message of `setError("No internet connection. Using cached data.")`. -/
def offlineMsg : String := "No internet connection. Using cached data."

/-- Message of `setError('Failed to load data. Please check your connection and try again.')`. -/
def failMsg : String :=
  "Failed to load data. Please check your connection and try again."

/-- Function `refreshFromApi`, as the list of provider states at its suspension
boundaries, in execution order.  Inputs: the connectivity answer of
`NetInfo.fetch()`, the HTTP outcome of `fetchJobs()`, and the clock value
used by `updateLastSyncTime`.  Faithful ordering: `setJobs(jobsData)` runs
before `await Database.saveJobs`, the timestamp is written after a
successful save, and `setJobsCache`/`setError(null)` run last.  The `catch`
consults the closure variable `jobs`, i.e. the pre-refresh list, and sets
the error only when that list is empty. -/
def refreshTrace (st : RState) (conn : Bool)
    (resp : Api.HttpResult (List Job × Nat)) (now : Nat) : List RState :=
  if conn = false then
    [st, { st with isOffline := true, error := some offlineMsg }]
  else
    let st1 : RState := { st with isOffline := false }
    match Api.fetchJobs resp with
    | .error _ =>
      [st, st1,
       { st1 with error := if st.jobs.isEmpty then some failMsg else st.error }]
    | .ok (jobsData, _total) =>
      let st2 : RState := { st1 with jobs := jobsData }
      match Database.saveJobs jobsData st.store with
      | .error _ =>
        [st, st1, st2,
         { st2 with error := if st.jobs.isEmpty then some failMsg else st.error }]
      | .ok store2 =>
        let st3 : RState := { st2 with store := store2 }
        let st4 : RState := { st3 with lastSync := some now }
        let st5 : RState :=
          { st4 with cache := mergeCache st.cache jobsData, error := none }
        [st, st1, st2, st3, st4, st5]

/-- The state in which `refreshFromApi` leaves the provider. -/
def refreshFromApi (st : RState) (conn : Bool)
    (resp : Api.HttpResult (List Job × Nat)) (now : Nat) : RState :=
  (refreshTrace st conn resp now).getLastD st

/-- How one orchestrator `getJobById` call settles: a resolved
`Job | undefined`, or the thrown "No internet connection" error. -/
inductive DOutcome where
  | resolve (j : Option Job)
  | reject
deriving DecidableEq, Repr

/-- The program counter of one in-flight `getJobById(id)` call.  Each
constructor is a suspension point of the source: `atDb` awaits
`Database.getJobById`, `atNet` awaits `NetInfo.fetch()`, `atFetch` awaits
the registered fetch promise, `toPersist` is the fire-and-forget
`Database.saveJobs([jobData])` scheduled by the `.then` continuation. -/
inductive Phase where
  | start
  | atDb
  | atNet
  | atFetch
  | toPersist (out : DOutcome)
  | done (out : DOutcome)
deriving DecidableEq, Repr

/-- The shared state read and written by in-flight `getJobById` calls:
memory cache, pending-fetch table, persistent table, plus a count of
`Api.fetchJobById` invocations for the observed id (the measure of the
deduplication contract). -/
structure MState where
  cache : Cache
  pending : String → Bool
  store : List Database.Row
  count : Nat

/-- One maximal synchronous segment of `getJobById(X)`, between two
suspension points.  `net X` is the (deterministic) value the remote client
resolves with — `Api.fetchJobById` never rejects, so the source's `catch`
fallback is unreachable and the fetch promise always resolves.  `off` is
the connectivity answer.  State updates made through React setters are
modelled as immediately visible to the other caller (the reading that is
most favourable to the deduplication claim). -/
def stepCaller (net : String → Job) (X : String) (off : Bool)
    (p : Phase) (s : MState) : Phase × MState :=
  match p with
  | .start =>
    -- if (jobsCache[id] && jobsCache[id].description) return jobsCache[id]
    if (match s.cache X with | some j => isDetailed j | none => false) then
      (.done (.resolve (s.cache X)), s)
    -- if (pendingFetches[id]) return pendingFetches[id]  — attach to the
    -- in-flight promise; its eventual value is the fetch result net X
    else if s.pending X then (.done (.resolve (some (net X))), s)
    else (.atDb, s)
  | .atDb =>
    -- const localJob = await Database.getJobById(id)
    match Database.getJobById X s.store with
    | some localJob =>
      if isDetailed localJob then
        -- promote into the memory cache and return it
        (.done (.resolve (some localJob)),
         { s with cache := setCache s.cache X localJob })
      else (.atNet, s)
    | none => (.atNet, s)
  | .atNet =>
    if off then
      -- offline: return the cached record if any, else throw
      match s.cache X with
      | some j => (.done (.resolve (some j)), s)
      | none => (.done .reject, s)
    else
      -- fetchJobById(id) is invoked and the promise registered in
      -- pendingFetches, within one synchronous segment
      (.atFetch,
       { s with count := s.count + 1,
                pending := fun y => if y = X then true else s.pending y })
  | .atFetch =>
    -- the .then continuation: cache the detailed record, schedule the
    -- fire-and-forget save, clear the pending entry, resolve
    (.toPersist (.resolve (some (net X))),
     { s with cache := setCache s.cache X (net X),
              pending := fun y => if y = X then false else s.pending y })
  | .toPersist out =>
    -- Database.saveJobs([jobData]).catch(...): a failed save is logged and
    -- leaves the table unchanged
    (.done out,
     { s with store := match Database.saveJobs [net X] s.store with
                       | .ok t => t
                       | .error _ => s.store })
  | .done out => (.done out, s)

/-- Two overlapping `getJobById(X)` calls, A and B, over the shared state. -/
structure Sys where
  phA : Phase
  phB : Phase
  st : MState

/-- Let caller A (`who = true`) or B take one step. -/
def sysStep (net : String → Job) (X : String) (off : Bool)
    (who : Bool) (sys : Sys) : Sys :=
  if who then
    let ps := stepCaller net X off sys.phA sys.st
    { sys with phA := ps.1, st := ps.2 }
  else
    let ps := stepCaller net X off sys.phB sys.st
    { sys with phB := ps.1, st := ps.2 }

/-- Run the two-caller system under an explicit interleaving schedule. -/
def run (net : String → Job) (X : String) (off : Bool)
    (sched : List Bool) (sys : Sys) : Sys :=
  sched.foldl (fun a w => sysStep net X off w a) sys

/-- Iterate a single caller (deterministic when it runs alone). -/
def runOne (net : String → Job) (X : String) (off : Bool) :
    Nat → Phase × MState → Phase × MState
  | 0, ps => ps
  | n + 1, ps => runOne net X off n (stepCaller net X off ps.1 ps.2)

/-- A call that has settled. -/
def isDone : Phase → Bool
  | .done _ => true
  | _ => false

/-- A call that has settled by resolving (not by throwing). -/
def resolvesOutcome : Phase → Bool
  | .done (.resolve _) => true
  | _ => false

end Orchestrator

/-! ## Helper lemmas -/

/-- Writing a row with `rowOfJob` preserves the primary key. -/
theorem Database.rowOfJob_id {j : Job} {r : Database.Row}
    (h : Database.rowOfJob j = some r) : r.id = j.id := by
  unfold Database.rowOfJob at h
  cases hc : j.category with
  | none => rw [hc] at h; cases h
  | some c => rw [hc] at h; cases h; rfl

/-- Looking up the freshly upserted row finds it. -/
theorem Database.getJobById_upsert (tbl : List Database.Row)
    (r : Database.Row) (X : String) (h : r.id = X) :
    Database.getJobById X (Database.upsertRow tbl r) =
      some (Database.rowToJob r) := by
  simp [Database.getJobById, Database.upsertRow, List.find?_cons, h]

/-! ## C8 — staleness predicate -/

/-- C8, counterexample: the claim says `isStale()` is false immediately
after a successful `setLastSyncTimestamp(now)`; at `now = 0` the stored
timestamp reads back as the falsy number `0`, which `isDataStale` treats
exactly like a missing timestamp, so the predicate is still true. -/
theorem c8_staleness_counterexample :
    Database.isDataStale (Database.updateLastSyncTime 0) 0 = true := by
  decide

/-- C8, amended: `isDataStale` is true when no timestamp was ever recorded;
for any positive `t`, it is false immediately after `updateLastSyncTime t`,
and thereafter it is true exactly when the elapsed time strictly exceeds
the one-hour `STALE_DATA_THRESHOLD`.  (At `t = 0` the stored value is falsy
in JS and is treated as never-recorded.) -/
theorem c8_staleness (now t later : Nat) (ht : 1 ≤ t) :
    Database.isDataStale none now = true
    ∧ Database.isDataStale (Database.updateLastSyncTime t) t = false
    ∧ Database.isDataStale (Database.updateLastSyncTime t) later =
        decide (later - t > Database.STALE_DATA_THRESHOLD) := by
  have ht0 : t ≠ 0 := by omega
  refine ⟨rfl, ?_, ?_⟩
  · simp [Database.isDataStale, Database.updateLastSyncTime,
      Database.getLastSyncTime, ht0]
  · simp [Database.isDataStale, Database.updateLastSyncTime,
      Database.getLastSyncTime, ht0]

/-- C8 witness: the amended staleness predicate at concrete clock values. -/
theorem c8_staleness_witness :
    1 ≤ 5
    ∧ (Database.isDataStale none 7 = true
       ∧ Database.isDataStale (Database.updateLastSyncTime 5) 5 = false
       ∧ Database.isDataStale (Database.updateLastSyncTime 5) 3600006 =
           decide (3600006 - 5 > Database.STALE_DATA_THRESHOLD)) :=
  ⟨by decide, c8_staleness 7 5 3600006 (by decide)⟩

/-! ## C7 — remote client failure contract -/

/-- C7, counterexample: the claim says every failing `fetchJobById` request
is reported as a thrown error; in fact both a thrown fetch error and a
non-ok HTTP status make `fetchJobById` *resolve* with the hard-coded mock
record. -/
theorem c7_failure_counterexample :
    Api.fetchJobById "7" Api.HttpResult.thrown =
      Except.ok (Api.getMockJobById "7")
    ∧ Api.fetchJobById "7" (Api.HttpResult.httpError 404) =
      Except.ok (Api.getMockJobById "7") :=
  ⟨rfl, rfl⟩

/-- C7, amended: `fetchJobs` reports every failing request as a thrown
error with no distinguished codes, but `fetchJobById` never rejects — on a
non-ok status, a thrown error, a null body or an incomplete body it
resolves with the mock substitute record. -/
theorem c7_remote_failure_contract (id : String) (status : Nat) (jd : Job)
    (hbad : jd.title = "" ∨ jd.company = "") :
    Api.fetchJobById id (Api.HttpResult.httpError status) =
      Except.ok (Api.getMockJobById id)
    ∧ Api.fetchJobById id Api.HttpResult.thrown =
      Except.ok (Api.getMockJobById id)
    ∧ Api.fetchJobById id (Api.HttpResult.ok none) =
      Except.ok (Api.getMockJobById id)
    ∧ Api.fetchJobById id (Api.HttpResult.ok (some jd)) =
      Except.ok (Api.getMockJobById id)
    ∧ Api.fetchJobs (Api.HttpResult.httpError status) = Except.error ()
    ∧ (Api.fetchJobs Api.HttpResult.thrown :
        Except Unit (List Job × Nat)) = Except.error () := by
  refine ⟨rfl, rfl, rfl, ?_, rfl, rfl⟩
  rcases hbad with h | h <;> simp [Api.fetchJobById, h]

/-- C7 witness: the amended failure contract at a concrete incomplete
payload. -/
theorem c7_remote_failure_witness :
    ((Api.getMockJobById "x").title = "" ∨ (Api.getMockJobById "x").company = "" → False)
    ∧ Api.fetchJobById "7" (Api.HttpResult.httpError 500) =
        Except.ok (Api.getMockJobById "7") :=
  ⟨by decide,
   (c7_remote_failure_contract "7" 500
     { Api.getMockJobById "x" with title := "" } (Or.inl rfl)).1⟩

/-! ## C10 — persistent-store round-trip drops unpersisted fields -/

/-- C10: for any job whose row write succeeds, the record read back through
`Database.getJobById` (and every record produced by `Database.getJobs`)
carries no `benefits`, `workplace` or `companyLogo`; `description` comes
back as the stored `job.description || ''` (so an absent description reads
back as `""`) and `requirements` likewise survives as its stored text. -/
theorem c10_roundtrip_drops (j : Job) (r : Database.Row)
    (tbl : List Database.Row) (hrow : Database.rowOfJob j = some r) :
    Database.saveJobs [j] tbl = Except.ok (Database.upsertRow tbl r)
    ∧ Database.getJobById j.id (Database.upsertRow tbl r) =
        some (Database.rowToJob r)
    ∧ (Database.rowToJob r).benefits = none
    ∧ (Database.rowToJob r).workplace = none
    ∧ (Database.rowToJob r).companyLogo = none
    ∧ (Database.rowToJob r).description = some (j.description.getD "")
    ∧ (Database.rowToJob r).requirements = some (j.requirements.getD "")
    ∧ ∀ jb ∈ Database.getJobs tbl,
        jb.benefits = none ∧ jb.workplace = none ∧ jb.companyLogo = none := by
  have hid := Database.rowOfJob_id hrow
  have hdesc : r.description = j.description.getD "" := by
    unfold Database.rowOfJob at hrow
    cases hc : j.category with
    | none => rw [hc] at hrow; cases hrow
    | some c => rw [hc] at hrow; cases hrow; rfl
  have hreq : r.requirements = j.requirements.getD "" := by
    unfold Database.rowOfJob at hrow
    cases hc : j.category with
    | none => rw [hc] at hrow; cases hrow
    | some c => rw [hc] at hrow; cases hrow; rfl
  refine ⟨?_, ?_, rfl, rfl, rfl, ?_, ?_, ?_⟩
  · simp [Database.saveJobs, Database.applyRows, hrow]
  · exact Database.getJobById_upsert tbl r j.id hid
  · simp [Database.rowToJob, hdesc]
  · simp [Database.rowToJob, hreq]
  · intro jb hjb
    simp only [Database.getJobs, List.mem_map] at hjb
    obtain ⟨r', _, hr'⟩ := hjb
    subst hr'
    exact ⟨rfl, rfl, rfl⟩

/-- C10 witness: a detailed job carrying benefits loses them across the
store round-trip, while its description and requirements survive. -/
theorem c10_roundtrip_witness :
    Database.rowOfJob
      { id := "42", _id := none, title := "T", company := "C",
        companyLogo := some "logo.png", location := "L",
        «type» := "full-time", salary := "1000", workplace := some "Remote",
        description := some "a long description",
        requirements := some "some requirements",
        benefits := some "great benefits", postedDate := "2024-01-01",
        featured := some true, category := some "design" } =
      some { id := "42", title := "T", company := "C", location := "L",
             «type» := "full-time", category := "design",
             description := "a long description",
             requirements := "some requirements", salary := "1000",
             posted_date := "2024-01-01", featured := 1 }
    ∧ (Database.rowToJob
        { id := "42", title := "T", company := "C", location := "L",
          «type» := "full-time", category := "design",
          description := "a long description",
          requirements := "some requirements", salary := "1000",
          posted_date := "2024-01-01", featured := 1 }).benefits = none :=
  ⟨by decide,
   (c10_roundtrip_drops
      { id := "42", _id := none, title := "T", company := "C",
        companyLogo := some "logo.png", location := "L",
        «type» := "full-time", salary := "1000", workplace := some "Remote",
        description := some "a long description",
        requirements := some "some requirements",
        benefits := some "great benefits", postedDate := "2024-01-01",
        featured := some true, category := some "design" }
      { id := "42", title := "T", company := "C", location := "L",
        «type» := "full-time", category := "design",
        description := "a long description",
        requirements := "some requirements", salary := "1000",
        posted_date := "2024-01-01", featured := 1 }
      [] (by decide)).2.2.1⟩

/-! ## C1 — non-destructive merge -/

/-- One `forEach` iteration leaves every other id's entry unchanged. -/
theorem Orchestrator.mergeStep_ne (c acc : Orchestrator.Cache) (job : Job)
    (x : String) (h : job.id ≠ x) :
    Orchestrator.mergeStep c acc job x = acc x := by
  have hx : ¬ x = job.id := fun he => h he.symm
  unfold Orchestrator.mergeStep
  cases c job.id with
  | none => simp [Orchestrator.setCache, hx]
  | some ex =>
    by_cases hd : isDetailed ex = true <;>
      simp [hd, Orchestrator.setCache, hx]

/-- Folding the merge over records with other ids leaves `x` unchanged. -/
theorem Orchestrator.mergeFold_not_mem (c : Orchestrator.Cache)
    (l : List Job) (acc : Orchestrator.Cache) (x : String)
    (h : ∀ j ∈ l, j.id ≠ x) :
    (l.foldl (Orchestrator.mergeStep c) acc) x = acc x := by
  induction l generalizing acc with
  | nil => rfl
  | cons j rest ih =>
    simp only [List.foldl_cons]
    rw [ih _ (fun q hq => h q (List.mem_cons_of_mem j hq)),
        Orchestrator.mergeStep_ne c acc j x (h j (List.mem_cons_self j rest))]

/-- A cached detailed record: old summary fields, populated detail fields
(the record of Scenario B before the refresh). -/
def c1ex : Job :=
  { id := "42", _id := none, title := "Old Title", company := "OldCo",
    companyLogo := none, location := "L1", «type» := "full-time",
    salary := "1000", workplace := none,
    description := some "a long description",
    requirements := some "reqs", benefits := some "bens",
    postedDate := "2020-01-01", featured := some false,
    category := some "design" }

/-- The incoming summary-only record for the same id (description absent),
with a new title, salary and posted date. -/
def c1inc : Job :=
  { id := "42", _id := none, title := "New Title", company := "NewCo",
    companyLogo := none, location := "L2", «type» := "part-time",
    salary := "2000", workplace := none, description := none,
    requirements := none, benefits := none,
    postedDate := "2021-02-02", featured := some true,
    category := some "sales" }

/-- A memory cache holding only the detailed record for id 42. -/
def c1cache : Orchestrator.Cache :=
  Orchestrator.setCache (fun _ => none) "42" c1ex

/-- C1, counterexample: the claim lists `postedDate` among the summary
fields a bulk refresh overwrites from the incoming record, and by saying
*only* those fields are overwritten implies `salary` is kept; on a cached
detailed record the merge in fact keeps the *cached* `postedDate`
(`2020-01-01`, not the incoming `2021-02-02`) and overwrites `salary` from
the incoming record. -/
theorem c1_merge_counterexample :
    (Orchestrator.mergeCache c1cache [c1inc] "42").map Job.postedDate ≠
      some c1inc.postedDate
    ∧ (Orchestrator.mergeCache c1cache [c1inc] "42").map Job.salary =
      some c1inc.salary
    ∧ c1inc.salary ≠ c1ex.salary := by
  refine ⟨by decide, by decide, by decide⟩

/-- C1, amended: for a cached *detailed* record, a bulk refresh whose
incoming catalog contains one record for that id leaves the detail fields
(`description`, `requirements`, `benefits`) — and also `postedDate` —
unchanged, and overwrites `title`, `company`, `companyLogo`, `location`,
`type` (employment type), `salary`, `workplace`, `featured` and `category`
from the incoming record; a record that is not detailed is replaced
wholesale. -/
theorem c1_non_destructive_merge (c : Orchestrator.Cache)
    (pre post : List Job) (inc ex : Job)
    (hc : c inc.id = some ex)
    (hpre : ∀ j ∈ pre, j.id ≠ inc.id) (hpost : ∀ j ∈ post, j.id ≠ inc.id) :
    (isDetailed ex = true →
      Orchestrator.mergeCache c (pre ++ inc :: post) inc.id =
        some (Orchestrator.mergeJob ex inc)
      ∧ (Orchestrator.mergeJob ex inc).description = ex.description
      ∧ (Orchestrator.mergeJob ex inc).requirements = ex.requirements
      ∧ (Orchestrator.mergeJob ex inc).benefits = ex.benefits
      ∧ (Orchestrator.mergeJob ex inc).postedDate = ex.postedDate
      ∧ (Orchestrator.mergeJob ex inc).title = inc.title
      ∧ (Orchestrator.mergeJob ex inc).company = inc.company
      ∧ (Orchestrator.mergeJob ex inc).companyLogo = inc.companyLogo
      ∧ (Orchestrator.mergeJob ex inc).location = inc.location
      ∧ (Orchestrator.mergeJob ex inc).«type» = inc.«type»
      ∧ (Orchestrator.mergeJob ex inc).salary = inc.salary
      ∧ (Orchestrator.mergeJob ex inc).workplace = inc.workplace
      ∧ (Orchestrator.mergeJob ex inc).featured = inc.featured
      ∧ (Orchestrator.mergeJob ex inc).category = inc.category)
    ∧ (isDetailed ex = false →
      Orchestrator.mergeCache c (pre ++ inc :: post) inc.id = some inc) := by
  have hmain : Orchestrator.mergeCache c (pre ++ inc :: post) inc.id =
      ((inc :: post).foldl (Orchestrator.mergeStep c)
        (pre.foldl (Orchestrator.mergeStep c) c)) inc.id := by
    simp [Orchestrator.mergeCache, List.foldl_append]
  have hpreval : (pre.foldl (Orchestrator.mergeStep c) c) inc.id = c inc.id :=
    Orchestrator.mergeFold_not_mem c pre c inc.id hpre
  constructor
  · intro hdet
    refine ⟨?_, rfl, rfl, rfl, rfl, rfl, rfl, rfl, rfl, rfl, rfl, rfl, rfl, rfl⟩
    rw [hmain]
    simp only [List.foldl_cons]
    rw [Orchestrator.mergeFold_not_mem c post _ inc.id hpost]
    unfold Orchestrator.mergeStep
    rw [hc]
    simp [hdet, Orchestrator.setCache]
  · intro hnd
    rw [hmain]
    simp only [List.foldl_cons]
    rw [Orchestrator.mergeFold_not_mem c post _ inc.id hpost]
    unfold Orchestrator.mergeStep
    rw [hc]
    simp [hnd, Orchestrator.setCache]

/-- C1 witness: the amended merge rule at Scenario B's concrete records —
the refreshed entry is the field-wise merge of the cached detailed record
with the incoming summary record. -/
theorem c1_merge_witness :
    c1cache c1inc.id = some c1ex
    ∧ isDetailed c1ex = true
    ∧ Orchestrator.mergeCache c1cache ([] ++ c1inc :: []) c1inc.id =
        some (Orchestrator.mergeJob c1ex c1inc) :=
  ⟨by decide, by decide,
   ((c1_non_destructive_merge c1cache [] [] c1inc c1ex (by decide)
      (by intro j hj; cases hj) (by intro j hj; cases hj)).1 (by decide)).1⟩

/-! ## C9 — read ordering of `getAll()` -/

/-- The sort key `featured` descending uses, seen on a returned record
(`featured` reads back as `row.featured === 1`). -/
def featRank (j : Job) : Nat := if j.featured = some true then 1 else 0

/-- Order "by `featured` descending, then `postedDate` descending"
between two consecutive returned records (dates compared by the store's
BINARY collation). -/
def jobOrdered (a b : Job) : Prop :=
  featRank b < featRank a
  ∨ (featRank a = featRank b ∧ Database.strLe b.postedDate a.postedDate = true)

/-- The BINARY-collation comparison is total. -/
theorem Database.charsLe_total : ∀ x y : List Char,
    (Database.charsLe x y || Database.charsLe y x) = true
  | [], y => by simp [Database.charsLe]
  | _ :: _, [] => by simp [Database.charsLe]
  | a :: as, b :: bs => by
    by_cases h1 : a.toNat < b.toNat
    · simp [Database.charsLe, h1]
    · by_cases h2 : b.toNat < a.toNat
      · simp [Database.charsLe, h1, h2]
      · simpa [Database.charsLe, h1, h2] using
          Database.charsLe_total as bs

/-- The BINARY-collation comparison is transitive. -/
theorem Database.charsLe_trans : ∀ x y z : List Char,
    Database.charsLe x y = true → Database.charsLe y z = true →
    Database.charsLe x z = true
  | [], _, z, _, _ => by simp [Database.charsLe]
  | _ :: _, [], _, hxy, _ => by simp [Database.charsLe] at hxy
  | _ :: _, _ :: _, [], _, hyz => by simp [Database.charsLe] at hyz
  | a :: as, b :: bs, c :: cs, hxy, hyz => by
    simp only [Database.charsLe] at hxy hyz ⊢
    by_cases hab : a.toNat < b.toNat
    · by_cases hbc : b.toNat < c.toNat
      · rw [if_pos (show a.toNat < c.toNat by omega)]
      · rw [if_neg hbc] at hyz
        by_cases hcb : c.toNat < b.toNat
        · rw [if_pos hcb] at hyz; cases hyz
        · rw [if_pos (show a.toNat < c.toNat by omega)]
    · rw [if_neg hab] at hxy
      by_cases hba : b.toNat < a.toNat
      · rw [if_pos hba] at hxy; cases hxy
      · rw [if_neg hba] at hxy
        by_cases hbc : b.toNat < c.toNat
        · rw [if_pos (show a.toNat < c.toNat by omega)]
        · rw [if_neg hbc] at hyz
          by_cases hcb : c.toNat < b.toNat
          · rw [if_pos hcb] at hyz; cases hyz
          · rw [if_neg hcb] at hyz
            rw [if_neg (show ¬ a.toNat < c.toNat by omega),
                if_neg (show ¬ c.toNat < a.toNat by omega)]
            exact Database.charsLe_trans as bs cs hxy hyz

/-- The `ORDER BY` comparison is total. -/
theorem Database.rowLe_total (a b : Database.Row) :
    (Database.rowLe a b || Database.rowLe b a) = true := by
  simp only [Database.rowLe, Database.strLe, Bool.or_eq_true,
    Bool.and_eq_true, decide_eq_true_eq, beq_iff_eq]
  rcases Nat.lt_trichotomy a.featured b.featured with h | h | h
  · right; left; exact h
  · have ht := Database.charsLe_total b.posted_date.data a.posted_date.data
    rcases Bool.or_eq_true_iff.mp ht with hd | hd
    · left; right; exact ⟨h, hd⟩
    · right; right; exact ⟨h.symm, hd⟩
  · left; left; exact h

/-- The `ORDER BY` comparison is transitive. -/
theorem Database.rowLe_trans (a b c : Database.Row)
    (hab : Database.rowLe a b = true) (hbc : Database.rowLe b c = true) :
    Database.rowLe a c = true := by
  simp only [Database.rowLe, Database.strLe, Bool.or_eq_true,
    Bool.and_eq_true, decide_eq_true_eq, beq_iff_eq] at hab hbc ⊢
  rcases hab with h1 | ⟨h1, h1d⟩ <;> rcases hbc with h2 | ⟨h2, h2d⟩
  · left; omega
  · left; omega
  · left; omega
  · right
    exact ⟨h1.trans h2, Database.charsLe_trans _ _ _ h2d h1d⟩

instance : IsTotal Database.Row Database.rowLeP :=
  ⟨fun a b => by
    have h := Database.rowLe_total a b
    rcases Bool.or_eq_true_iff.mp h with h | h
    · exact Or.inl h
    · exact Or.inr h⟩

instance : IsTrans Database.Row Database.rowLeP :=
  ⟨fun a b c => Database.rowLe_trans a b c⟩

/-- On rows whose `featured` column is the stored 0/1, the `ORDER BY`
comparison maps to the specification order on the returned records. -/
theorem Database.rowLe_toJob (a b : Database.Row)
    (ha : a.featured = 0 ∨ a.featured = 1)
    (hb : b.featured = 0 ∨ b.featured = 1)
    (h : Database.rowLe a b = true) :
    jobOrdered (Database.rowToJob a) (Database.rowToJob b) := by
  simp only [Database.rowLe, Database.strLe, Bool.or_eq_true,
    Bool.and_eq_true, decide_eq_true_eq, beq_iff_eq] at h
  rcases h with h | ⟨hf, hd⟩
  · rcases ha with ha | ha <;> rcases hb with hb | hb <;>
      rw [ha, hb] at h <;> try omega
    left
    simp [featRank, Database.rowToJob, ha, hb]
  · right
    constructor
    · simp [featRank, Database.rowToJob, hf]
    · exact hd

/-- C9: for every store contents with 0/1 `featured` flags (as `saveJobs`
writes them), `getAll()` returns exactly the stored records (a permutation
of them) and consecutive returned records are ordered by `featured`
descending, then `postedDate` descending. -/
theorem c9_read_ordering (tbl : List Database.Row)
    (hf : ∀ r ∈ tbl, r.featured = 0 ∨ r.featured = 1) :
    (Database.getJobs tbl).Perm (tbl.map Database.rowToJob)
    ∧ (Database.getJobs tbl).Pairwise jobOrdered := by
  constructor
  · exact (List.perm_insertionSort Database.rowLeP tbl).map Database.rowToJob
  · have hs := List.sorted_insertionSort Database.rowLeP tbl
    unfold Database.getJobs
    rw [List.pairwise_map]
    refine hs.imp_of_mem ?_
    intro a b ha hb hab
    exact Database.rowLe_toJob a b
      (hf a ((List.perm_insertionSort Database.rowLeP tbl).mem_iff.mp ha))
      (hf b ((List.perm_insertionSort Database.rowLeP tbl).mem_iff.mp hb)) hab

/-- The store produced by Scenario A: an empty store bulk-refreshed with
three summary records (one featured, two not, distinct posted dates). -/
def c9tbl : List Database.Row :=
  [{ id := "a", title := "TA", company := "CA", location := "LA",
     «type» := "full-time", category := "design", description := "",
     requirements := "", salary := "1", posted_date := "2024-03-01",
     featured := 0 },
   { id := "b", title := "TB", company := "CB", location := "LB",
     «type» := "part-time", category := "sales", description := "",
     requirements := "", salary := "2", posted_date := "2024-01-01",
     featured := 1 },
   { id := "c", title := "TC", company := "CC", location := "LC",
     «type» := "contract", category := "finance", description := "",
     requirements := "", salary := "3", posted_date := "2024-05-01",
     featured := 0 }]

/-- C9 witness: Scenario A's three records — `getAll()` returns all three,
featured first, the rest by descending posted date. -/
theorem c9_read_ordering_witness :
    (∀ r ∈ c9tbl, r.featured = 0 ∨ r.featured = 1)
    ∧ (Database.getJobs c9tbl).Perm (c9tbl.map Database.rowToJob)
    ∧ (Database.getJobs c9tbl).map Job.id = ["b", "c", "a"] :=
  ⟨by decide, (c9_read_ordering c9tbl (by decide)).1, by decide⟩

/-! ## Characterizations of the refresh trace, one per branch -/

/-- Offline pre-check: set the offline condition and return. -/
theorem Orchestrator.refreshTrace_offline (st : Orchestrator.RState)
    (resp : Api.HttpResult (List Job × Nat)) (now : Nat) :
    Orchestrator.refreshTrace st false resp now =
      [st, { st with isOffline := true, error := some Orchestrator.offlineMsg }] := by
  simp [Orchestrator.refreshTrace]

/-- Failing fetch: the catch block, consulting the pre-refresh `jobs`. -/
theorem Orchestrator.refreshTrace_fetchErr (st : Orchestrator.RState)
    (resp : Api.HttpResult (List Job × Nat)) (now : Nat)
    (hf : Api.fetchJobs resp = Except.error ()) :
    Orchestrator.refreshTrace st true resp now =
      [st, { st with isOffline := false },
       { st with
           isOffline := false,
           error := if st.jobs.isEmpty then some Orchestrator.failMsg
                    else st.error }] := by
  simp [Orchestrator.refreshTrace, hf]

/-- Successful fetch, failing persistence: `setJobs` already ran, the
transaction rolled back, the catch block consults the pre-refresh `jobs`. -/
theorem Orchestrator.refreshTrace_saveErr (st : Orchestrator.RState)
    (jd : List Job) (tot now : Nat)
    (hsv : Database.saveJobs jd st.store = Except.error ()) :
    Orchestrator.refreshTrace st true (Api.HttpResult.ok (jd, tot)) now =
      [st, { st with isOffline := false },
       { st with isOffline := false, jobs := jd },
       { st with
           isOffline := false, jobs := jd,
           error := if st.jobs.isEmpty then some Orchestrator.failMsg
                    else st.error }] := by
  simp [Orchestrator.refreshTrace, Api.fetchJobs, hsv]

/-- Fully successful refresh: jobs set, store written, timestamp advanced,
cache merged and error cleared — in that order. -/
theorem Orchestrator.refreshTrace_ok (st : Orchestrator.RState)
    (jd : List Job) (tot now : Nat) (store2 : List Database.Row)
    (hsv : Database.saveJobs jd st.store = Except.ok store2) :
    Orchestrator.refreshTrace st true (Api.HttpResult.ok (jd, tot)) now =
      [st, { st with isOffline := false },
       { st with isOffline := false, jobs := jd },
       { st with isOffline := false, jobs := jd, store := store2 },
       { st with
           isOffline := false, jobs := jd, store := store2,
           lastSync := some now },
       { st with
           isOffline := false, jobs := jd, store := store2,
           lastSync := some now,
           cache := Orchestrator.mergeCache st.cache jd, error := none }] := by
  simp [Orchestrator.refreshTrace, Api.fetchJobs, hsv]

/-! ## C4 — no-clobber on error -/

/-- C4: when the persistence step of a bulk refresh fails after a
successful fetch, every state the refresh passes through — including the
final one — keeps the pre-refresh store contents and last-sync timestamp;
and in *any* refresh, a state whose timestamp differs from the pre-refresh
one is a state in which the fetched batch was already successfully
persisted. -/
theorem c4_no_clobber_on_error (st : Orchestrator.RState)
    (jobsData : List Job) (total now : Nat)
    (hfail : Database.saveJobs jobsData st.store = Except.error ()) :
    (Orchestrator.refreshFromApi st true
        (Api.HttpResult.ok (jobsData, total)) now).store = st.store
    ∧ (Orchestrator.refreshFromApi st true
        (Api.HttpResult.ok (jobsData, total)) now).lastSync = st.lastSync
    ∧ (∀ s ∈ Orchestrator.refreshTrace st true
          (Api.HttpResult.ok (jobsData, total)) now,
        s.store = st.store ∧ s.lastSync = st.lastSync)
    ∧ (∀ (conn : Bool) (resp : Api.HttpResult (List Job × Nat)) (now' : Nat),
        ∀ s ∈ Orchestrator.refreshTrace st conn resp now',
          s.lastSync ≠ st.lastSync →
          ∃ jd tot store2,
            Api.fetchJobs resp = Except.ok (jd, tot)
            ∧ Database.saveJobs jd st.store = Except.ok store2
            ∧ s.store = store2) := by
  refine ⟨?_, ?_, ?_, ?_⟩
  · rw [Orchestrator.refreshFromApi,
      Orchestrator.refreshTrace_saveErr st jobsData total now hfail]
    rfl
  · rw [Orchestrator.refreshFromApi,
      Orchestrator.refreshTrace_saveErr st jobsData total now hfail]
    rfl
  · intro s hs
    rw [Orchestrator.refreshTrace_saveErr st jobsData total now hfail] at hs
    simp only [List.mem_cons, List.not_mem_nil, or_false] at hs
    rcases hs with rfl | rfl | rfl | rfl <;> exact ⟨rfl, rfl⟩
  · intro conn resp now' s hs hne
    cases conn with
    | false =>
      rw [Orchestrator.refreshTrace_offline st resp now'] at hs
      simp only [List.mem_cons, List.not_mem_nil, or_false] at hs
      rcases hs with rfl | rfl <;> exact (hne rfl).elim
    | true =>
      cases hresp : Api.fetchJobs resp with
      | error e =>
        cases e
        rw [Orchestrator.refreshTrace_fetchErr st resp now' hresp] at hs
        simp only [List.mem_cons, List.not_mem_nil, or_false] at hs
        rcases hs with rfl | rfl | rfl <;> exact (hne rfl).elim
      | ok d =>
        obtain ⟨jd, tot⟩ := d
        have hresp' : resp = Api.HttpResult.ok (jd, tot) := by
          cases resp with
          | ok d0 => cases hresp; rfl
          | httpError s0 => cases hresp
          | thrown => cases hresp
        subst hresp'
        cases hsv : Database.saveJobs jd st.store with
        | error e =>
          cases e
          rw [Orchestrator.refreshTrace_saveErr st jd tot now' hsv] at hs
          simp only [List.mem_cons, List.not_mem_nil, or_false] at hs
          rcases hs with rfl | rfl | rfl | rfl <;> exact (hne rfl).elim
        | ok store2 =>
          rw [Orchestrator.refreshTrace_ok st jd tot now' store2 hsv] at hs
          simp only [List.mem_cons, List.not_mem_nil, or_false] at hs
          rcases hs with rfl | rfl | rfl | rfl | rfl | rfl
          · exact (hne rfl).elim
          · exact (hne rfl).elim
          · exact (hne rfl).elim
          · exact (hne rfl).elim
          · exact ⟨jd, tot, store2, rfl, hsv, rfl⟩
          · exact ⟨jd, tot, store2, rfl, hsv, rfl⟩

/-- A fetched batch whose persistence fails: this record has no category,
which violates the `NOT NULL` constraint of the `category` column and rolls
the transaction back. -/
def c4bad : Job :=
  { id := "9", _id := none, title := "T", company := "C", companyLogo := none,
    location := "L", «type» := "full-time", salary := "s", workplace := none,
    description := none, requirements := none, benefits := none,
    postedDate := "2024-01-01", featured := some false, category := none }

/-- A pre-refresh provider state with one job visible, one stored row and a
recorded timestamp. -/
def c4st : Orchestrator.RState :=
  { jobs := [c4bad], cache := fun _ => none,
    store := [{ id := "1", title := "T1", company := "C1", location := "L1",
                «type» := "full-time", category := "sales", description := "",
                requirements := "", salary := "1",
                posted_date := "2024-02-02", featured := 0 }],
    lastSync := some 50, error := none, isOffline := false }

/-- C4 witness: the no-clobber theorem at a concrete failing batch. -/
theorem c4_no_clobber_witness :
    Database.saveJobs [c4bad] c4st.store = Except.error ()
    ∧ (Orchestrator.refreshFromApi c4st true
        (Api.HttpResult.ok ([c4bad], 1)) 777).store = c4st.store
    ∧ (Orchestrator.refreshFromApi c4st true
        (Api.HttpResult.ok ([c4bad], 1)) 777).lastSync = c4st.lastSync :=
  ⟨by rfl,
   (c4_no_clobber_on_error c4st [c4bad] 1 777 (by rfl)).1,
   (c4_no_clobber_on_error c4st [c4bad] 1 777 (by rfl)).2.1⟩

/-! ## C5 — error absorption during bulk refresh -/

/-- C5: on a failing fetch or a failing persistence step, the memory cache,
store and timestamp are untouched; the failure message is surfaced exactly
when there were no jobs to show before the refresh (the pre-refresh list,
which the catch block reads through its closure), and a populated view is
never blanked.  (The offline pre-check is outside this claim: per the
spec's step 1 it sets the separate "no network, showing cached data"
condition and returns before fetching.) -/
theorem c5_error_absorption (st : Orchestrator.RState)
    (resp : Api.HttpResult (List Job × Nat)) (now : Nat)
    (herr : Api.fetchJobs resp = Except.error ()
      ∨ ∃ jd tot, Api.fetchJobs resp = Except.ok (jd, tot)
          ∧ Database.saveJobs jd st.store = Except.error ()) :
    (Orchestrator.refreshFromApi st true resp now).cache = st.cache
    ∧ (Orchestrator.refreshFromApi st true resp now).store = st.store
    ∧ (Orchestrator.refreshFromApi st true resp now).lastSync = st.lastSync
    ∧ (st.jobs = [] →
        (Orchestrator.refreshFromApi st true resp now).error =
          some Orchestrator.failMsg)
    ∧ (st.jobs ≠ [] →
        (Orchestrator.refreshFromApi st true resp now).error = st.error)
    ∧ (st.jobs ≠ [] →
        (Orchestrator.refreshFromApi st true resp now).jobs ≠ []) := by
  rcases herr with hf | ⟨jd, tot, hok, hsv⟩
  · rw [Orchestrator.refreshFromApi,
      Orchestrator.refreshTrace_fetchErr st resp now hf]
    refine ⟨rfl, rfl, rfl, ?_, ?_, ?_⟩
    · intro h; simp [h]
    · intro h
      have : st.jobs.isEmpty = false := by
        cases hj : st.jobs with
        | nil => exact (h hj).elim
        | cons a l => rfl
      simp [this]
    · intro h; exact h
  · have hresp' : resp = Api.HttpResult.ok (jd, tot) := by
      cases resp with
      | ok d0 =>
        cases hok
        rfl
      | httpError s0 => cases hok
      | thrown => cases hok
    subst hresp'
    have hjd : jd ≠ [] := by
      intro hnil
      rw [hnil] at hsv
      simp [Database.saveJobs] at hsv
    rw [Orchestrator.refreshFromApi,
      Orchestrator.refreshTrace_saveErr st jd tot now hsv]
    refine ⟨rfl, rfl, rfl, ?_, ?_, ?_⟩
    · intro h; simp [h]
    · intro h
      have : st.jobs.isEmpty = false := by
        cases hj : st.jobs with
        | nil => exact (h hj).elim
        | cons a l => rfl
      simp [this]
    · intro _; exact hjd

/-- C5 witness: the error-absorption theorem at the concrete failing batch,
with a populated pre-refresh view: the error is swallowed and the cache is
untouched. -/
theorem c5_error_absorption_witness :
    (Api.fetchJobs (Api.HttpResult.ok ([c4bad], 1)) = Except.ok ([c4bad], 1)
      ∧ Database.saveJobs [c4bad] c4st.store = Except.error ())
    ∧ (Orchestrator.refreshFromApi c4st true
        (Api.HttpResult.ok ([c4bad], 1)) 777).cache = c4st.cache
    ∧ (c4st.jobs ≠ [] →
        (Orchestrator.refreshFromApi c4st true
          (Api.HttpResult.ok ([c4bad], 1)) 777).error = c4st.error) :=
  ⟨⟨by rfl, by rfl⟩,
   (c5_error_absorption c4st (Api.HttpResult.ok ([c4bad], 1)) 777
     (Or.inr ⟨[c4bad], 1, by rfl, by rfl⟩)).1,
   (c5_error_absorption c4st (Api.HttpResult.ok ([c4bad], 1)) 777
     (Or.inr ⟨[c4bad], 1, by rfl, by rfl⟩)).2.2.2.2.1⟩

/-! ## Equations of the `getJobById` step machine, one per source branch -/

namespace Orchestrator

/-- Cached detailed record: returned immediately, no I/O. -/
theorem stepCaller_start_cached (net : String → Job) (X : String) (off : Bool)
    (s : MState) (j : Job) (hc : s.cache X = some j)
    (hd : isDetailed j = true) :
    stepCaller net X off .start s = (.done (.resolve (some j)), s) := by
  simp [stepCaller, hc, hd]

/-- Pending fetch observed: attach to it (its value is the fetch result). -/
theorem stepCaller_start_pending (net : String → Job) (X : String)
    (off : Bool) (s : MState)
    (hnd : (match s.cache X with
            | some j => isDetailed j
            | none => false) = false)
    (hp : s.pending X = true) :
    stepCaller net X off .start s = (.done (.resolve (some (net X))), s) := by
  simp only [stepCaller, hnd, hp]
  simp

/-- Neither cached in detail nor pending: proceed to the store read. -/
theorem stepCaller_start_miss (net : String → Job) (X : String) (off : Bool)
    (s : MState)
    (hnd : (match s.cache X with
            | some j => isDetailed j
            | none => false) = false)
    (hp : s.pending X = false) :
    stepCaller net X off .start s = (.atDb, s) := by
  simp only [stepCaller, hnd, hp]
  simp

/-- Detailed record found in the store: promote it into the cache and
return it. -/
theorem stepCaller_atDb_hit (net : String → Job) (X : String) (off : Bool)
    (s : MState) (lj : Job) (hl : Database.getJobById X s.store = some lj)
    (hd : isDetailed lj = true) :
    stepCaller net X off .atDb s =
      (.done (.resolve (some lj)),
       { s with cache := setCache s.cache X lj }) := by
  simp [stepCaller, hl, hd]

/-- No detailed record in the store: proceed to the connectivity check. -/
theorem stepCaller_atDb_miss (net : String → Job) (X : String) (off : Bool)
    (s : MState)
    (h : ∀ lj, Database.getJobById X s.store = some lj →
      isDetailed lj = false) :
    stepCaller net X off .atDb s = (.atNet, s) := by
  cases hl : Database.getJobById X s.store with
  | none => simp [stepCaller, hl]
  | some lj => simp [stepCaller, hl, h lj hl]

/-- Online: invoke the remote fetch and register the pending promise. -/
theorem stepCaller_atNet_online (net : String → Job) (X : String)
    (s : MState) :
    stepCaller net X false .atNet s =
      (.atFetch,
       { s with count := s.count + 1,
                pending := fun y => if y = X then true else s.pending y }) :=
  rfl

/-- Offline with any cached record: return it. -/
theorem stepCaller_atNet_offline_hit (net : String → Job) (X : String)
    (s : MState) (j : Job) (hc : s.cache X = some j) :
    stepCaller net X true .atNet s = (.done (.resolve (some j)), s) := by
  simp [stepCaller, hc]

/-- Offline with nothing cached: throw the no-internet error. -/
theorem stepCaller_atNet_offline_miss (net : String → Job) (X : String)
    (s : MState) (hc : s.cache X = none) :
    stepCaller net X true .atNet s = (.done .reject, s) := by
  simp [stepCaller, hc]

/-- The fetch promise resolves: cache the record, clear the pending entry,
schedule the fire-and-forget save. -/
theorem stepCaller_atFetch (net : String → Job) (X : String) (off : Bool)
    (s : MState) :
    stepCaller net X off .atFetch s =
      (.toPersist (.resolve (some (net X))),
       { s with cache := setCache s.cache X (net X),
                pending := fun y => if y = X then false else s.pending y }) :=
  rfl

/-- The fire-and-forget save lands (the fetched record has a category, so
its row write succeeds). -/
theorem stepCaller_toPersist (net : String → Job) (X : String) (off : Bool)
    (s : MState) (out : DOutcome) (r : Database.Row)
    (hrow : Database.rowOfJob (net X) = some r) :
    stepCaller net X off (.toPersist out) s =
      (.done out, { s with store := Database.upsertRow s.store r }) := by
  simp [stepCaller, Database.saveJobs, Database.applyRows, hrow]

/-- A settled call stays settled. -/
theorem stepCaller_done (net : String → Job) (X : String) (off : Bool)
    (s : MState) (out : DOutcome) :
    stepCaller net X off (.done out) s = (.done out, s) := rfl

/-! ## The two-caller invariant -/

/-- Fuel is 1 while the caller can still reach the network-invocation step. -/
def phaseFuel : Phase → Nat
  | .start => 1
  | .atDb => 1
  | .atNet => 1
  | _ => 0

/-- The values a settled call can have resolved with, starting from the
empty state: the fetched record itself, or its store round-trip (the
record a second caller can promote from the freshly persisted row). -/
def outOk (net : String → Job) (X : String) (r : Database.Row)
    (out : DOutcome) : Prop :=
  out = .resolve (some (net X)) ∨ out = .resolve (some (Database.rowToJob r))

/-- Per-phase obligations of one caller. -/
def phaseOk (net : String → Job) (X : String) (r : Database.Row)
    (cnt : Nat) (cache : Cache) : Phase → Prop
  | .done out => outOk net X r out ∧ 1 ≤ cnt
  | .toPersist out => outOk net X r out ∧ 1 ≤ cnt ∧ cache X ≠ none
  | .atFetch => 1 ≤ cnt
  | _ => True

/-- System invariant for two concurrent `getJobById(X)` calls from the
empty online state: the invocation count is bounded by the callers that
have passed the network step; cache and store hold only the fetched record
or its round-trip; any populated cache/store/pending entry witnesses at
least one invocation; the store is only populated after the cache
(fire-and-forget save runs after the cache write). -/
def InvM (net : String → Job) (X : String) (r : Database.Row)
    (sys : Sys) : Prop :=
  sys.st.count + phaseFuel sys.phA + phaseFuel sys.phB ≤ 2
  ∧ (sys.st.cache X = none ∨ sys.st.cache X = some (net X)
      ∨ sys.st.cache X = some (Database.rowToJob r))
  ∧ (Database.getJobById X sys.st.store = none
      ∨ Database.getJobById X sys.st.store = some (Database.rowToJob r))
  ∧ (sys.st.cache X ≠ none → 1 ≤ sys.st.count)
  ∧ (Database.getJobById X sys.st.store ≠ none → 1 ≤ sys.st.count)
  ∧ (sys.st.pending X = true → 1 ≤ sys.st.count)
  ∧ (Database.getJobById X sys.st.store ≠ none → sys.st.cache X ≠ none)
  ∧ phaseOk net X r sys.st.count sys.st.cache sys.phA
  ∧ phaseOk net X r sys.st.count sys.st.cache sys.phB

theorem phaseOk_mono (net : String → Job) (X : String) (r : Database.Row)
    (c1 c2 : Nat) (k1 k2 : Cache) (p : Phase)
    (hc : c1 ≤ c2) (hk : k1 X ≠ none → k2 X ≠ none)
    (h : phaseOk net X r c1 k1 p) : phaseOk net X r c2 k2 p := by
  cases p with
  | done out => exact ⟨h.1, le_trans h.2 hc⟩
  | toPersist out => exact ⟨h.1, le_trans h.2.1 hc, hk h.2.2⟩
  | atFetch => exact le_trans h hc
  | start => trivial
  | atDb => trivial
  | atNet => trivial

theorem setCache_self (c : Cache) (k : String) (j : Job) :
    setCache c k j k = some j := by
  simp [setCache]

end Orchestrator

namespace Orchestrator

/-- Introduction form of `InvM` with the machine state given by its
fields. -/
theorem invM_intro (net : String → Job) (X : String) (r : Database.Row)
    (p q : Phase) (k : Cache) (pe : String → Bool)
    (tb : List Database.Row) (c : Nat)
    (H1 : c + phaseFuel p + phaseFuel q ≤ 2)
    (H2 : k X = none ∨ k X = some (net X)
      ∨ k X = some (Database.rowToJob r))
    (H3 : Database.getJobById X tb = none
      ∨ Database.getJobById X tb = some (Database.rowToJob r))
    (H4 : k X ≠ none → 1 ≤ c)
    (H5 : Database.getJobById X tb ≠ none → 1 ≤ c)
    (H6 : pe X = true → 1 ≤ c)
    (H7 : Database.getJobById X tb ≠ none → k X ≠ none)
    (H8 : phaseOk net X r c k p)
    (H9 : phaseOk net X r c k q) :
    InvM net X r ⟨p, q, ⟨k, pe, tb, c⟩⟩ :=
  ⟨H1, H2, H3, H4, H5, H6, H7, H8, H9⟩

/-- One caller's step preserves the invariant (the other caller sits at
phase `q`). -/
theorem invM_caller (net : String → Job) (X : String) (r : Database.Row)
    (hrow : Database.rowOfJob (net X) = some r) (hid : (net X).id = X)
    (p q : Phase) (s : MState)
    (hfuel : s.count + phaseFuel p + phaseFuel q ≤ 2)
    (hcache : s.cache X = none ∨ s.cache X = some (net X)
      ∨ s.cache X = some (Database.rowToJob r))
    (hstore : Database.getJobById X s.store = none
      ∨ Database.getJobById X s.store = some (Database.rowToJob r))
    (hc1 : s.cache X ≠ none → 1 ≤ s.count)
    (hs1 : Database.getJobById X s.store ≠ none → 1 ≤ s.count)
    (hp1 : s.pending X = true → 1 ≤ s.count)
    (hsc : Database.getJobById X s.store ≠ none → s.cache X ≠ none)
    (hOkP : phaseOk net X r s.count s.cache p)
    (hOkQ : phaseOk net X r s.count s.cache q) :
    InvM net X r
      ⟨(stepCaller net X false p s).1, q, (stepCaller net X false p s).2⟩ := by
  have hridX : r.id = X := by rw [Database.rowOfJob_id hrow, hid]
  cases p with
  | start =>
    have hfuel' : s.count + phaseFuel Phase.start + phaseFuel q ≤ 2 := hfuel
    cases hc : s.cache X with
    | some j =>
      by_cases hd : isDetailed j = true
      · rw [stepCaller_start_cached net X false s j hc hd]
        have hcnt : 1 ≤ s.count := hc1 (by rw [hc]; exact fun h => by cases h)
        refine invM_intro net X r _ q _ _ _ _ ?_ hcache hstore hc1 hs1 hp1
          hsc ?_ hOkQ
        · simp only [phaseFuel] at hfuel' ⊢; omega
        · refine ⟨?_, hcnt⟩
          rcases hcache with h | h | h
          · rw [hc] at h; cases h
          · rw [hc] at h
            exact Or.inl (by rw [← Option.some_inj.mp h])
          · rw [hc] at h
            exact Or.inr (by rw [← Option.some_inj.mp h])
      · have hnd : (match s.cache X with
            | some j => isDetailed j
            | none => false) = false := by
          rw [hc]; exact Bool.eq_false_iff.mpr hd
        cases hp : s.pending X with
        | true =>
          rw [stepCaller_start_pending net X false s hnd hp]
          refine invM_intro net X r _ q _ _ _ _ ?_ hcache hstore hc1 hs1 hp1
            hsc ?_ hOkQ
          · simp only [phaseFuel] at hfuel' ⊢; omega
          · exact ⟨Or.inl rfl, hp1 hp⟩
        | false =>
          rw [stepCaller_start_miss net X false s hnd hp]
          exact invM_intro net X r _ q _ _ _ _ hfuel' hcache hstore hc1 hs1
            hp1 hsc trivial hOkQ
    | none =>
      have hnd : (match s.cache X with
          | some j => isDetailed j
          | none => false) = false := by rw [hc]
      cases hp : s.pending X with
      | true =>
        rw [stepCaller_start_pending net X false s hnd hp]
        refine invM_intro net X r _ q _ _ _ _ ?_ hcache hstore hc1 hs1 hp1
          hsc ?_ hOkQ
        · simp only [phaseFuel] at hfuel' ⊢; omega
        · exact ⟨Or.inl rfl, hp1 hp⟩
      | false =>
        rw [stepCaller_start_miss net X false s hnd hp]
        exact invM_intro net X r _ q _ _ _ _ hfuel' hcache hstore hc1 hs1
          hp1 hsc trivial hOkQ
  | atDb =>
    have hfuel' : s.count + phaseFuel Phase.atDb + phaseFuel q ≤ 2 := hfuel
    cases hl : Database.getJobById X s.store with
    | some lj =>
      have hlj : lj = Database.rowToJob r := by
        rcases hstore with h | h
        · rw [hl] at h; cases h
        · rw [hl] at h; exact Option.some_inj.mp h
      have hcnt : 1 ≤ s.count := hs1 (by rw [hl]; exact fun h => by cases h)
      have hset : setCache s.cache X lj X = some lj := setCache_self s.cache X lj
      by_cases hd : isDetailed lj = true
      · rw [stepCaller_atDb_hit net X false s lj hl hd]
        refine invM_intro net X r _ q _ _ _ _ ?_ ?_ hstore ?_ hs1 hp1
          ?_ ?_ ?_
        · simp only [phaseFuel] at hfuel' ⊢; omega
        · rw [hset]
          exact Or.inr (Or.inr (by rw [hlj]))
        · intro _; exact hcnt
        · intro _; rw [hset]; exact fun h => by cases h
        · exact ⟨Or.inr (by rw [hlj]), hcnt⟩
        · refine phaseOk_mono net X r s.count s.count s.cache _ q le_rfl ?_ hOkQ
          intro _; rw [hset]; exact fun h => by cases h
      · rw [stepCaller_atDb_miss net X false s
            (fun lj' hlj' => by
              rw [hl] at hlj'
              rw [← Option.some_inj.mp hlj']
              exact Bool.eq_false_iff.mpr hd)]
        exact invM_intro net X r _ q _ _ _ _ hfuel' hcache hstore hc1 hs1
          hp1 hsc trivial hOkQ
    | none =>
      rw [stepCaller_atDb_miss net X false s (fun lj' hlj' => by
        rw [hl] at hlj'; cases hlj')]
      exact invM_intro net X r _ q _ _ _ _ hfuel' hcache hstore hc1 hs1
        hp1 hsc trivial hOkQ
  | atNet =>
    rw [stepCaller_atNet_online net X s]
    have hfuel' : s.count + phaseFuel Phase.atNet + phaseFuel q ≤ 2 := hfuel
    refine invM_intro net X r _ q _ _ _ _ ?_ hcache hstore ?_ ?_ ?_ hsc ?_ ?_
    · simp only [phaseFuel] at hfuel' ⊢; omega
    · intro _; omega
    · intro _; omega
    · intro _; omega
    · exact Nat.le_add_left 1 s.count
    · exact phaseOk_mono net X r s.count (s.count + 1) s.cache s.cache q
        (Nat.le_succ _) id hOkQ
  | atFetch =>
    rw [stepCaller_atFetch net X false s]
    have hcnt : 1 ≤ s.count := hOkP
    have hset : setCache s.cache X (net X) X = some (net X) :=
      setCache_self s.cache X (net X)
    refine invM_intro net X r _ q _ _ _ _ ?_ ?_ hstore ?_ ?_ ?_ ?_ ?_ ?_
    · simp only [phaseFuel] at hfuel ⊢; omega
    · rw [hset]; exact Or.inr (Or.inl rfl)
    · intro _; exact hcnt
    · intro _; exact hcnt
    · intro _; exact hcnt
    · intro _; rw [hset]; exact fun h => by cases h
    · exact ⟨Or.inl rfl, hcnt, by rw [hset]; exact fun h => by cases h⟩
    · refine phaseOk_mono net X r s.count s.count s.cache _ q le_rfl ?_ hOkQ
      intro _; rw [hset]; exact fun h => by cases h
  | toPersist out =>
    rw [stepCaller_toPersist net X false s out r hrow]
    obtain ⟨hout, hcnt, hkc⟩ := hOkP
    have hlook : Database.getJobById X (Database.upsertRow s.store r) =
        some (Database.rowToJob r) :=
      Database.getJobById_upsert s.store r X hridX
    refine invM_intro net X r _ q _ _ _ _ ?_ hcache ?_ hc1 ?_ hp1 ?_ ?_ hOkQ
    · simp only [phaseFuel] at hfuel ⊢; omega
    · exact Or.inr hlook
    · intro _; exact hcnt
    · intro _; exact hkc
    · exact ⟨hout, hcnt⟩
  | done out =>
    rw [stepCaller_done net X false s out]
    exact invM_intro net X r _ q _ _ _ _ hfuel hcache hstore hc1 hs1 hp1
      hsc hOkP hOkQ

/-- Invariant `InvM` is symmetric in the two callers. -/
theorem invM_swap (net : String → Job) (X : String) (r : Database.Row)
    (a b : Phase) (st : MState) (h : InvM net X r ⟨a, b, st⟩) :
    InvM net X r ⟨b, a, st⟩ := by
  obtain ⟨h1, h2, h3, h4, h5, h6, h7, h8, h9⟩ := h
  refine ⟨?_, h2, h3, h4, h5, h6, h7, h9, h8⟩
  dsimp only at h1 ⊢
  omega

/-- Any interleaved step preserves the invariant. -/
theorem invM_sysStep (net : String → Job) (X : String) (r : Database.Row)
    (hrow : Database.rowOfJob (net X) = some r) (hid : (net X).id = X)
    (who : Bool) (sys : Sys) (h : InvM net X r sys) :
    InvM net X r (sysStep net X false who sys) := by
  obtain ⟨h1, h2, h3, h4, h5, h6, h7, h8, h9⟩ := h
  cases who with
  | true =>
    exact invM_caller net X r hrow hid sys.phA sys.phB sys.st
      h1 h2 h3 h4 h5 h6 h7 h8 h9
  | false =>
    show InvM net X r
      ⟨sys.phA, (stepCaller net X false sys.phB sys.st).1,
       (stepCaller net X false sys.phB sys.st).2⟩
    refine invM_swap net X r _ sys.phA _ ?_
    exact invM_caller net X r hrow hid sys.phB sys.phA sys.st
      (by omega) h2 h3 h4 h5 h6 h7 h9 h8

/-- The empty initial state: nothing cached, nothing pending, empty store,
no invocation yet, both callers at their first line. -/
def mInit : MState :=
  { cache := fun _ => none, pending := fun _ => false, store := [],
    count := 0 }

/-- Both callers about to run. -/
def sysInit : Sys := { phA := .start, phB := .start, st := mInit }

theorem invM_init (net : String → Job) (X : String) (r : Database.Row) :
    InvM net X r sysInit := by
  refine ⟨?_, Or.inl rfl, Or.inl ?_, ?_, ?_, ?_, ?_, trivial, trivial⟩
  · simp [sysInit, mInit, phaseFuel]
  · simp [Database.getJobById, sysInit, mInit]
  · intro h; exact (h rfl).elim
  · intro h
    simp [Database.getJobById, sysInit, mInit] at h
  · intro h
    simp [sysInit, mInit] at h
  · intro h
    simp [Database.getJobById, sysInit, mInit] at h

/-- The invariant holds after any schedule from the initial state. -/
theorem invM_run (net : String → Job) (X : String) (r : Database.Row)
    (hrow : Database.rowOfJob (net X) = some r) (hid : (net X).id = X) :
    ∀ (sched : List Bool) (sys : Sys), InvM net X r sys →
      InvM net X r (run net X false sched sys)
  | [], _, h => h
  | w :: rest, sys, h =>
    invM_run net X r hrow hid rest (sysStep net X false w sys)
      (invM_sysStep net X r hrow hid w sys h)

/-- Unfolding `phaseOk` at a settled phase. -/
theorem phaseOk_done_elim (net : String → Job) (X : String)
    (r : Database.Row) (cnt : Nat) (k : Cache) (out : DOutcome)
    (h : phaseOk net X r cnt k (.done out)) :
    outOk net X r out ∧ 1 ≤ cnt := h

end Orchestrator

/-! ## C2 — deduplication of concurrent detail fetches -/

/-- A deterministic remote catalog: every id resolves to a detailed record
for that id (with a category, so its row write succeeds). -/
def netD : String → Job := fun i =>
  { id := i, _id := none, title := "Senior Dev", company := "Acme",
    companyLogo := none, location := "NYC", «type» := "full-time",
    salary := "100k", workplace := none,
    description := some "full job description",
    requirements := some "many requirements",
    benefits := some "many benefits", postedDate := "2024-04-01",
    featured := some true, category := some "software" }

/-- The row `saveJobs` writes for `netD "7"`. -/
def rD : Database.Row :=
  { id := "7", title := "Senior Dev", company := "Acme", location := "NYC",
    «type» := "full-time", category := "software",
    description := "full job description",
    requirements := "many requirements", salary := "100k",
    posted_date := "2024-04-01", featured := 1 }

/-- The interleaving in which both callers pass their pending-fetch check
before either has registered a pending entry: A and B alternate through
start, the store read and the connectivity check, then both invoke the
remote client. -/
def c2sched : List Bool :=
  [true, false, true, false, true, false, true, false, true, false]

/-- C2, counterexample: two concurrent `getJobById("7")` calls on an id
absent from both caches, interleaved step by step, both run to completion
— and the Remote Catalog Client is invoked twice, not once.  The pending
entry is registered only after the store read and the connectivity check
(two suspension points), so the second caller's pending check saw
nothing. -/
theorem c2_dedup_counterexample :
    Orchestrator.isDone
      (Orchestrator.run netD "7" false c2sched Orchestrator.sysInit).phA = true
    ∧ Orchestrator.isDone
      (Orchestrator.run netD "7" false c2sched Orchestrator.sysInit).phB = true
    ∧ (Orchestrator.run netD "7" false c2sched
        Orchestrator.sysInit).st.count = 2 := by
  refine ⟨by decide, by decide, by decide⟩

/-- C2, amended: a caller whose pending check observes an in-flight fetch
for X attaches to it — it resolves to that fetch's value with no step and
no new network call; but concurrent callers that interleave before the
first registers its pending entry each invoke the remote client, so two
concurrent calls produce between 1 and 2 invocations (not always exactly
one).  Every settled caller resolves to the fetched record or to its
persistent-store round-trip. -/
theorem c2_dedup_amended (net : String → Job) (X : String)
    (r : Database.Row)
    (hrow : Database.rowOfJob (net X) = some r) (hid : (net X).id = X) :
    (∀ s : Orchestrator.MState,
      (match s.cache X with
       | some j => isDetailed j
       | none => false) = false →
      s.pending X = true →
      Orchestrator.stepCaller net X false .start s =
        (.done (.resolve (some (net X))), s))
    ∧ ∀ sched : List Bool,
        (Orchestrator.run net X false sched Orchestrator.sysInit).st.count ≤ 2
        ∧ (∀ out,
            (Orchestrator.run net X false sched Orchestrator.sysInit).phA =
              .done out →
            Orchestrator.outOk net X r out
            ∧ 1 ≤ (Orchestrator.run net X false sched
                Orchestrator.sysInit).st.count)
        ∧ (∀ out,
            (Orchestrator.run net X false sched Orchestrator.sysInit).phB =
              .done out →
            Orchestrator.outOk net X r out
            ∧ 1 ≤ (Orchestrator.run net X false sched
                Orchestrator.sysInit).st.count) := by
  constructor
  · intro s hnd hp
    exact Orchestrator.stepCaller_start_pending net X false s hnd hp
  · intro sched
    obtain ⟨h1, h2, h3, h4, h5, h6, h7, h8, h9⟩ :=
      Orchestrator.invM_run net X r hrow hid sched Orchestrator.sysInit
        (Orchestrator.invM_init net X r)
    refine ⟨by omega, ?_, ?_⟩
    · intro out hout
      rw [hout] at h8
      exact Orchestrator.phaseOk_done_elim net X r _ _ out h8
    · intro out hout
      rw [hout] at h9
      exact Orchestrator.phaseOk_done_elim net X r _ _ out h9

/-- C2 witness: the amended dedup bound at a concrete remote and
schedule. -/
theorem c2_dedup_witness :
    Database.rowOfJob (netD "7") = some rD
    ∧ (netD "7").id = "7"
    ∧ (Orchestrator.run netD "7" false [true, true, true, true, true]
        Orchestrator.sysInit).st.count ≤ 2 :=
  ⟨by decide, by decide,
   ((c2_dedup_amended netD "7" rD (by decide) (by decide)).2
     [true, true, true, true, true]).1⟩

/-! ## C3 — offline detail read -/

/-- C3, counterexample: offline with nothing cached anywhere, a
`getJobById("9")` call runs to completion and settles by *throwing* the
"No internet connection" error — it does not resolve. -/
theorem c3_offline_counterexample :
    Orchestrator.resolvesOutcome
      (Orchestrator.runOne netD "9" true 3
        (.start, Orchestrator.mInit)).1 = false
    ∧ (Orchestrator.runOne netD "9" true 3
        (.start, Orchestrator.mInit)).1 = .done .reject := by
  refine ⟨by decide, by decide⟩

/-- C3, amended: offline with a summary-only record cached for Y,
`getJobById(Y)` resolves with that summary record; offline with nothing at
all cached, it rejects with the dedicated no-internet error (a thrown
error, not a resolved "unavailable" value). -/
theorem c3_offline_read (net : String → Job) (X : String)
    (s : Orchestrator.MState) (j : Job)
    (hc : s.cache X = some j) (hnd : isDetailed j = false)
    (hp : s.pending X = false)
    (hst : ∀ lj, Database.getJobById X s.store = some lj →
      isDetailed lj = false) :
    (Orchestrator.runOne net X true 3 (.start, s)).1 =
      .done (.resolve (some j))
    ∧ ∀ s' : Orchestrator.MState, s'.cache X = none →
        s'.pending X = false →
        Database.getJobById X s'.store = none →
        (Orchestrator.runOne net X true 3 (.start, s')).1 = .done .reject := by
  constructor
  · have e1 := Orchestrator.stepCaller_start_miss net X true s
      (by rw [hc]; exact hnd) hp
    have e2 := Orchestrator.stepCaller_atDb_miss net X true s hst
    have e3 := Orchestrator.stepCaller_atNet_offline_hit net X s j hc
    calc (Orchestrator.runOne net X true 3 (.start, s)).1
        = (Orchestrator.runOne net X true 2
            (Orchestrator.stepCaller net X true .start s)).1 := rfl
      _ = (Orchestrator.runOne net X true 2
            (Orchestrator.Phase.atDb, s)).1 := by rw [e1]
      _ = (Orchestrator.runOne net X true 1
            (Orchestrator.stepCaller net X true .atDb s)).1 := rfl
      _ = (Orchestrator.runOne net X true 1
            (Orchestrator.Phase.atNet, s)).1 := by rw [e2]
      _ = (Orchestrator.runOne net X true 0
            (Orchestrator.stepCaller net X true .atNet s)).1 := rfl
      _ = (Orchestrator.runOne net X true 0
            (Orchestrator.Phase.done (.resolve (some j)), s)).1 := by rw [e3]
      _ = Orchestrator.Phase.done (.resolve (some j)) := rfl
  · intro s' hc' hp' hl'
    have e1 := Orchestrator.stepCaller_start_miss net X true s'
      (by rw [hc']) hp'
    have e2 := Orchestrator.stepCaller_atDb_miss net X true s'
      (fun lj hlj => by rw [hl'] at hlj; cases hlj)
    have e3 := Orchestrator.stepCaller_atNet_offline_miss net X s' hc'
    calc (Orchestrator.runOne net X true 3 (.start, s')).1
        = (Orchestrator.runOne net X true 2
            (Orchestrator.stepCaller net X true .start s')).1 := rfl
      _ = (Orchestrator.runOne net X true 2
            (Orchestrator.Phase.atDb, s')).1 := by rw [e1]
      _ = (Orchestrator.runOne net X true 1
            (Orchestrator.stepCaller net X true .atDb s')).1 := rfl
      _ = (Orchestrator.runOne net X true 1
            (Orchestrator.Phase.atNet, s')).1 := by rw [e2]
      _ = (Orchestrator.runOne net X true 0
            (Orchestrator.stepCaller net X true .atNet s')).1 := rfl
      _ = (Orchestrator.runOne net X true 0
            (Orchestrator.Phase.done .reject, s')).1 := by rw [e3]
      _ = Orchestrator.Phase.done .reject := rfl

/-- A summary-only record for id 9 (no description). -/
def c3sum : Job :=
  { id := "9", _id := none, title := "Summary Only", company := "Acme",
    companyLogo := none, location := "NYC", «type» := "part-time",
    salary := "50k", workplace := none, description := none,
    requirements := none, benefits := none, postedDate := "2024-02-01",
    featured := some false, category := some "sales" }

/-- An offline-read state: only the summary record is cached, nothing
pending, empty store. -/
def c3st : Orchestrator.MState :=
  { cache := Orchestrator.setCache (fun _ => none) "9" c3sum,
    pending := fun _ => false, store := [], count := 0 }

/-- C3 witness: offline with the cached summary, the call resolves with
that summary record. -/
theorem c3_offline_witness :
    c3st.cache "9" = some c3sum
    ∧ isDetailed c3sum = false
    ∧ (Orchestrator.runOne netD "9" true 3 (.start, c3st)).1 =
        .done (.resolve (some c3sum)) :=
  ⟨by decide, by decide,
   (c3_offline_read netD "9" c3st c3sum (by decide) (by decide) (by decide)
     (fun lj hlj => by simp [Database.getJobById, c3st] at hlj)).1⟩

/-! ## C6 — cache-freshness ordering -/

/-- The empty provider state. -/
def c6st0 : Orchestrator.RState :=
  { jobs := [], cache := fun _ => none, store := [], lastSync := none,
    error := none, isOffline := false }

/-- An incoming summary record for id 42. -/
def c6job : Job :=
  { id := "42", _id := none, title := "T", company := "C",
    companyLogo := none, location := "L", «type» := "full-time",
    salary := "s", workplace := none, description := none,
    requirements := none, benefits := none, postedDate := "2024-01-01",
    featured := some false, category := some "cat" }

/-- The row `saveJobs` writes for `c6job`. -/
def c6row : Database.Row :=
  { id := "42", title := "T", company := "C", location := "L",
    «type» := "full-time", category := "cat", description := "",
    requirements := "", salary := "s", posted_date := "2024-01-01",
    featured := 0 }

/-- C6, counterexample: in the middle of a successful bulk refresh — at
the suspension point right after `Database.saveJobs` commits and before
`setJobsCache` runs — the store already holds the record for id 42 while
the memory cache holds nothing for it: a reader at that instant observes a
store value strictly newer than the cache's. -/
theorem c6_freshness_counterexample :
    (Database.getJobById "42"
      (((Orchestrator.refreshTrace c6st0 true
          (Api.HttpResult.ok ([c6job], 1)) 111).getD 3 c6st0).store)).isSome =
      true
    ∧ ((Orchestrator.refreshTrace c6st0 true
        (Api.HttpResult.ok ([c6job], 1)) 111).getD 3 c6st0).cache "42" =
      none := by
  refine ⟨by decide, by decide⟩

/-- C6, amended: the two write paths order their writes differently.  A
bulk refresh writes the store first (trace position 3), then the
timestamp, and updates the memory cache only in its final step (position
5), so during that window the store is newer than the cache; the detail
fetch path is the opposite — its machine keeps the invariant that whenever
the store holds a record for X, the cache already holds one. -/
theorem c6_cache_freshness_amended (st : Orchestrator.RState)
    (jobsData : List Job) (total now : Nat) (store2 : List Database.Row)
    (net : String → Job) (X : String) (r : Database.Row)
    (hok : Database.saveJobs jobsData st.store = Except.ok store2)
    (hrow : Database.rowOfJob (net X) = some r) (hid : (net X).id = X) :
    ((Orchestrator.refreshTrace st true (Api.HttpResult.ok (jobsData, total))
        now).getD 3 st).store = store2
    ∧ ((Orchestrator.refreshTrace st true (Api.HttpResult.ok (jobsData, total))
        now).getD 3 st).cache = st.cache
    ∧ ((Orchestrator.refreshTrace st true (Api.HttpResult.ok (jobsData, total))
        now).getD 5 st).cache = Orchestrator.mergeCache st.cache jobsData
    ∧ ((Orchestrator.refreshTrace st true (Api.HttpResult.ok (jobsData, total))
        now).getD 5 st).store = store2
    ∧ ∀ sched : List Bool,
        Database.getJobById X
          (Orchestrator.run net X false sched Orchestrator.sysInit).st.store ≠
          none →
        (Orchestrator.run net X false sched
          Orchestrator.sysInit).st.cache X ≠ none := by
  refine ⟨?_, ?_, ?_, ?_, ?_⟩
  · rw [Orchestrator.refreshTrace_ok st jobsData total now store2 hok]; rfl
  · rw [Orchestrator.refreshTrace_ok st jobsData total now store2 hok]; rfl
  · rw [Orchestrator.refreshTrace_ok st jobsData total now store2 hok]; rfl
  · rw [Orchestrator.refreshTrace_ok st jobsData total now store2 hok]; rfl
  · intro sched
    obtain ⟨h1, h2, h3, h4, h5, h6, h7, h8, h9⟩ :=
      Orchestrator.invM_run net X r hrow hid sched Orchestrator.sysInit
        (Orchestrator.invM_init net X r)
    exact h7

/-- C6 witness: the amended ordering at the concrete refresh of Scenario-B
shape and a concrete detail-fetch schedule. -/
theorem c6_cache_freshness_witness :
    Database.saveJobs [c6job] c6st0.store = Except.ok [c6row]
    ∧ ((Orchestrator.refreshTrace c6st0 true (Api.HttpResult.ok ([c6job], 1))
        42).getD 3 c6st0).cache = c6st0.cache :=
  ⟨by rfl,
   (c6_cache_freshness_amended c6st0 [c6job] 1 42 [c6row] netD "7" rD
     (by rfl) (by decide) (by decide)).2.1⟩
